import Mathlib

/-!
Verification of the run-pipeline core of `pyiron_workflow_vasp`
(`src/generic.py` and `src/pyiron_workflow_vasp/vasp.py`) against its
specification, via a shallow embedding in Lean.

Filesystem-reading code is embedded over an explicit filesystem value;
fallible operations (opening a file, parsing `vasprun.xml`) return
`Except Unit`, mirroring the Python exceptions they may raise, and the
part of each source function that catches exceptions is translated to a
`match` on the `Except` value.
-/

namespace PyironVasp

/-! ## Filesystem model for the file-reading operations

A file is missing (`open` raises `FileNotFoundError`), unreadable (`open`
raises some other `OSError`, e.g. `IsADirectoryError` or
`PermissionError`), or readable text.  A readable file is the list of
strings that Python line iteration (`for file_line in file`) yields. -/

inductive VFile where
  | missing
  | unreadable
  | plain (lines : List String)
deriving DecidableEq, Repr

def FS : Type := String → VFile

def FS.empty : FS := fun _ => VFile.missing

def FS.set (fs : FS) (p : String) (f : VFile) : FS :=
  fun q => if q == p then f else fs q

/-- `os.path.join(a, b)` for a relative second component, as the source
always uses it (the source never joins onto an empty or slash-terminated
first component except possibly the empty `dirname`). -/
def pathJoin (a b : String) : String :=
  if a == "" then b else a ++ "/" ++ b

/-! ## Python string helpers used by the source -/

/-- Whether `hay` starts with `needle` (char lists). -/
def charsStartWith : List Char → List Char → Bool
  | [], _ => true
  | _ :: _, [] => false
  | n :: ns, c :: cs => n == c && charsStartWith ns cs

/-- Whether `needle` occurs somewhere in `hay` (char lists). -/
def charsContain (needle : List Char) : List Char → Bool
  | [] => needle.isEmpty
  | c :: cs => charsStartWith needle (c :: cs) || charsContain needle cs

/-- Python substring containment `needle in hay`. -/
def strContains (hay needle : String) : Bool :=
  charsContain needle.data hay.data

/-! ## `isLineInFile` (src/generic.py lines 117-144)

The Python catches `FileNotFoundError` (returning the initial
`line_found = False`); any other error from `open` propagates.  The loop
with `break` is an existential scan over the lines. -/

def isLineInFile (fs : FS) (filepath : String) (line : String)
    (exact_match : Bool) : Except Unit Bool :=
  match fs filepath with
  | VFile.missing => Except.ok false
  | VFile.unreadable => Except.error ()
  | VFile.plain lines =>
      Except.ok (lines.any fun file_line =>
        if exact_match then line == file_line.trim
        else strContains file_line line)

/-! ## `check_convergence` (src/pyiron_workflow_vasp/vasp.py lines 281-325)

`Vasprun(filename=...)` is an external collaborator: it opens the file
(raising if missing or unreadable) and parses it, yielding the `converged`
flag or raising on malformed content.  The parser proper is a parameter
`parse` applied to the file's lines. -/

def vasprunRead (parse : List String → Except Unit Bool) (fs : FS)
    (path : String) : Except Unit Bool :=
  match fs path with
  | VFile.plain lines => parse lines
  | _ => Except.error ()

def line_converged : String :=
  "reached required accuracy - stopping structural energy minimisation"

/-- The nested `try`/`except` chain of `check_convergence`: bare `except`
handlers, so every error flows to the next tier, and the final `pass`
leaves the initial `converged = False`. -/
def check_convergence (parse : List String → Except Unit Bool) (fs : FS)
    (workdir : String) (filename_vasprun : String)
    (filename_vasplog : String) (backup_vasplog : String) : Bool :=
  match vasprunRead parse fs (pathJoin workdir filename_vasprun) with
  | Except.ok b => b
  | Except.error _ =>
    match isLineInFile fs (pathJoin workdir filename_vasplog) line_converged false with
    | Except.ok b => b
    | Except.error _ =>
      match isLineInFile fs (pathJoin workdir backup_vasplog) line_converged false with
      | Except.ok b => b
      | Except.error _ => false

/-- Modelled from the spec (§9 design notes): an explicit ordered list of
attempt results; the first tier producing a verdict wins, and if no tier
produces one the verdict is false.  Used to state that the nested handler
chain of `check_convergence` realises exactly this fallback contract. -/
def firstVerdict : List (Except Unit Bool) → Bool
  | [] => false
  | Except.ok b :: _ => b
  | Except.error _ :: rest => firstVerdict rest

/-- A concrete stand-in for the external `vasprun.xml` parser, used only to
instantiate theorems at concrete inputs: a one-line file `"converged"` or
`"not converged"` parses to the flag, anything else is malformed. -/
def demoParse : List String → Except Unit Bool
  | ["converged"] => Except.ok true
  | ["not converged"] => Except.ok false
  | _ => Except.error ()

/-- Filesystem for the C1 counterexample: the working directory `wd`
contains only a backup log `error.out` whose single line is the marker. -/
def fsBackupOnly : FS :=
  FS.empty.set (pathJoin "wd" "error.out") (VFile.plain [line_converged])

/-- **C4.** For every filesystem (files missing, unreadable or malformed in
any combination), `check_convergence` is total and returns the boolean
computed by the spec's fallback contract: the first tier to produce a
verdict wins, and if every tier errors the verdict is `false`.  Totality
over `FS` (the codomain is `Bool`, never an exception) is the embedding of
"never raises": every fallible sub-operation returns `Except` and every
error branch is consumed. -/
theorem claim_C4 (parse : List String → Except Unit Bool) (fs : FS)
    (workdir fvr fvl fbl : String) :
    check_convergence parse fs workdir fvr fvl fbl =
      firstVerdict
        [vasprunRead parse fs (pathJoin workdir fvr),
         isLineInFile fs (pathJoin workdir fvl) line_converged false,
         isLineInFile fs (pathJoin workdir fbl) line_converged false] := by
  unfold check_convergence firstVerdict
  cases vasprunRead parse fs (pathJoin workdir fvr) with
  | ok b => rfl
  | error e =>
    cases isLineInFile fs (pathJoin workdir fvl) line_converged false with
    | ok b => rfl
    | error e =>
      cases isLineInFile fs (pathJoin workdir fbl) line_converged false with
      | ok b => rfl
      | error e => rfl

/-- **C1, counterexample.** A directory with no `vasprun.xml`, no
`vasp.log`, and an `error.out` whose line contains the marker substring:
the claim says the detector returns `true` (third tier), but
`check_convergence` returns `false` — the backup log is never consulted,
because the `vasp.log` scan swallows the missing-file error and returns a
`false` verdict instead of raising. -/
theorem claim_C1_counterexample :
    fsBackupOnly (pathJoin "wd" "vasprun.xml") = VFile.missing
    ∧ fsBackupOnly (pathJoin "wd" "vasp.log") = VFile.missing
    ∧ isLineInFile fsBackupOnly (pathJoin "wd" "error.out") line_converged false
        = Except.ok true
    ∧ check_convergence demoParse fsBackupOnly "wd" "vasprun.xml" "vasp.log" "error.out"
        = false := by
  exact ⟨rfl, rfl, rfl, rfl⟩

/-- **C1, amended.** The actual fallback of `check_convergence`: a
parseable `vasprun.xml` decides the verdict without consulting either log;
otherwise the verdict is the `vasp.log` substring scan whenever that scan
returns one — `true` exactly when some line contains the marker, `false`
when the file is marker-free or missing (so the backup log is not
consulted then; the missing case is spelled out separately); `error.out`
is scanned only when the `vasp.log` scan itself raises (file unreadable),
and then its verdict is returned; and if every tier errors the verdict is
`false`. -/
theorem claim_C1 (parse : List String → Except Unit Bool) (fs : FS)
    (workdir : String) :
    (∀ b, vasprunRead parse fs (pathJoin workdir "vasprun.xml") = Except.ok b →
      check_convergence parse fs workdir "vasprun.xml" "vasp.log" "error.out" = b)
    ∧ (vasprunRead parse fs (pathJoin workdir "vasprun.xml") = Except.error () →
      isLineInFile fs (pathJoin workdir "vasp.log") line_converged false = Except.ok true →
      check_convergence parse fs workdir "vasprun.xml" "vasp.log" "error.out" = true)
    ∧ (vasprunRead parse fs (pathJoin workdir "vasprun.xml") = Except.error () →
      isLineInFile fs (pathJoin workdir "vasp.log") line_converged false = Except.ok false →
      check_convergence parse fs workdir "vasprun.xml" "vasp.log" "error.out" = false)
    ∧ (vasprunRead parse fs (pathJoin workdir "vasprun.xml") = Except.error () →
      fs (pathJoin workdir "vasp.log") = VFile.missing →
      check_convergence parse fs workdir "vasprun.xml" "vasp.log" "error.out" = false)
    ∧ (vasprunRead parse fs (pathJoin workdir "vasprun.xml") = Except.error () →
      isLineInFile fs (pathJoin workdir "vasp.log") line_converged false = Except.error () →
      ∀ b, isLineInFile fs (pathJoin workdir "error.out") line_converged false = Except.ok b →
      check_convergence parse fs workdir "vasprun.xml" "vasp.log" "error.out" = b)
    ∧ (vasprunRead parse fs (pathJoin workdir "vasprun.xml") = Except.error () →
      isLineInFile fs (pathJoin workdir "vasp.log") line_converged false = Except.error () →
      isLineInFile fs (pathJoin workdir "error.out") line_converged false = Except.error () →
      check_convergence parse fs workdir "vasprun.xml" "vasp.log" "error.out" = false) := by
  refine ⟨?_, ?_, ?_, ?_, ?_, ?_⟩
  · intro b h
    unfold check_convergence
    rw [h]
  · intro h1 h2
    unfold check_convergence
    rw [h1, h2]
  · intro h1 h2
    unfold check_convergence
    rw [h1, h2]
  · intro h1 h2
    unfold check_convergence
    rw [h1]
    unfold isLineInFile
    rw [h2]
  · intro h1 h2 b h3
    unfold check_convergence
    rw [h1, h2, h3]
  · intro h1 h2 h3
    unfold check_convergence
    rw [h1, h2, h3]

/-- **C1, witness for the amended theorem**: on the counterexample
filesystem (marker only in `error.out`, primary log missing so its scan
returns `ok false`) the marker-free clause yields the `false` verdict;
and on a filesystem where every source is unreadable, the all-error
clause also yields `false`. -/
theorem claim_C1_witness :
    check_convergence demoParse fsBackupOnly "wd" "vasprun.xml" "vasp.log" "error.out"
      = false
    ∧ check_convergence demoParse (fun _ => VFile.unreadable) "wd"
        "vasprun.xml" "vasp.log" "error.out" = false :=
  ⟨(claim_C1 demoParse fsBackupOnly "wd").2.2.1 rfl rfl,
   (claim_C1 demoParse (fun _ => VFile.unreadable) "wd").2.2.2.2.2 rfl rfl rfl⟩

/-- **C10.** For a `filepath` not referring to an existing file,
`isLineInFile` returns `false` without raising (`FileNotFoundError` is
caught and the initial `line_found = False` is returned); replacing the
missing file by an existing file that lacks the searched line (here: an
empty file) gives the same observable result, so a caller cannot detect
absence through an exception. -/
theorem claim_C10 (fs : FS) (filepath line : String) (exact_match : Bool)
    (h : fs filepath = VFile.missing) :
    isLineInFile fs filepath line exact_match = Except.ok false
    ∧ isLineInFile (fs.set filepath (VFile.plain [])) filepath line exact_match
        = Except.ok false := by
  constructor
  · unfold isLineInFile
    rw [h]
  · unfold isLineInFile FS.set
    simp

/-- **C10, witness**: the empty filesystem at a concrete path and line. -/
theorem claim_C10_witness :
    isLineInFile FS.empty "calc/vasp.log" line_converged false = Except.ok false
    ∧ isLineInFile (FS.empty.set "calc/vasp.log" (VFile.plain []))
        "calc/vasp.log" line_converged false = Except.ok false :=
  claim_C10 FS.empty "calc/vasp.log" line_converged false rfl

/-! ## `shell` (src/generic.py lines 77-115)

The process environment is a Python dict, modelled as an association list
with first-match lookup; `dict.__setitem__` replaces an existing binding
or appends a new one (modelled as prepend-plus-filter, which has the same
lookup semantics).  Override values go through `str(v)`; Python values are
modelled by `PyVal` with `pyStr` as `str`. `subprocess.run` is an external
collaborator: a parameter from the argv / cwd / env triple it receives. -/

inductive PyVal where
  | vstr (s : String)
  | vint (n : Int)
  | vbool (b : Bool)
deriving DecidableEq, Repr

def pyStr : PyVal → String
  | PyVal.vstr s => s
  | PyVal.vint n => toString n
  | PyVal.vbool b => if b then "True" else "False"

def dictGet (d : List (String × String)) (k : String) : Option String :=
  (d.find? fun kv => kv.1 == k).map Prod.snd

def dictSet (d : List (String × String)) (k v : String) :
    List (String × String) :=
  (k, v) :: d.filter fun kv => kv.1 != k

def dictUpdate (d u : List (String × String)) : List (String × String) :=
  u.foldl (fun acc kv => dictSet acc kv.1 kv.2) d

structure ProcCall where
  argv : List String
  cwd : Option String
  env : List (String × String)
deriving DecidableEq, Repr

structure ProcResult where
  stdout : String
  stderr : String
  returncode : Int
deriving DecidableEq, Repr

structure ShellOutput where
  stdout : String
  stderr : String
  return_code : Int
deriving DecidableEq, Repr

/-- The invocation `shell` hands to `subprocess.run`: defaulting of
`environment` and `arguments` to `{}` / `[]` when `None`, the fresh copy
`dict(os.environ)` overlaid with the string-coerced overrides, and the
argument list `[command, *map(str, arguments)]`. -/
def shellCall (ambient : List (String × String)) (command : String)
    (workdir : Option String) (environment : Option (List (String × PyVal)))
    (arguments : Option (List PyVal)) : ProcCall :=
  let environment := environment.getD []
  let arguments := arguments.getD []
  let environ := dictUpdate ambient (environment.map fun kv => (kv.1, pyStr kv.2))
  { argv := command :: arguments.map pyStr, cwd := workdir, env := environ }

def shell (run : ProcCall → ProcResult) (ambient : List (String × String))
    (command : String) (workdir : Option String)
    (environment : Option (List (String × PyVal)))
    (arguments : Option (List PyVal)) : ShellOutput :=
  let proc := run (shellCall ambient command workdir environment arguments)
  { stdout := proc.stdout, stderr := proc.stderr, return_code := proc.returncode }

theorem dictGet_dictSet_self (d : List (String × String)) (k v : String) :
    dictGet (dictSet d k v) k = some v := by
  simp [dictGet, dictSet]

theorem dictGet_dictSet_ne (d : List (String × String)) (k v k2 : String)
    (h : k2 ≠ k) : dictGet (dictSet d k v) k2 = dictGet d k2 := by
  unfold dictGet dictSet
  rw [List.find?]
  have hk : (k == k2) = false := by
    simp only [beq_eq_false_iff_ne]
    exact fun he => h he.symm
  simp only [hk]
  induction d with
  | nil => rfl
  | cons p rest ih =>
    by_cases hp : p.1 = k
    · have h1 : (p.1 != k) = false := by simp [hp]
      have h2 : (p.1 == k2) = false := by
        simp only [beq_eq_false_iff_ne]
        rw [hp]
        exact fun he => h he.symm
      simp only [List.filter, h1, List.find?, h2]
      exact ih
    · have h1 : (p.1 != k) = true := by simp [hp]
      simp only [List.filter, h1, List.find?]
      cases hpk : (p.1 == k2) with
      | true => rfl
      | false => exact ih

theorem dictGet_dictUpdate (d u : List (String × String)) (k : String)
    (h : (u.map Prod.fst).Nodup) :
    dictGet (dictUpdate d u) k =
      match u.find? (fun kv => kv.1 == k) with
      | some kv => some kv.2
      | none => dictGet d k := by
  induction u generalizing d with
  | nil => rfl
  | cons p rest ih =>
    rw [List.map_cons, List.nodup_cons] at h
    show dictGet (dictUpdate (dictSet d p.1 p.2) rest) k = _
    rw [ih _ h.2]
    rw [List.find?]
    cases hpk : (p.1 == k) with
    | true =>
      have hk : p.1 = k := by exact eq_of_beq hpk
      have hnone : rest.find? (fun kv => kv.1 == k) = none := by
        rw [List.find?_eq_none]
        intro kv hkv
        simp only [beq_iff_eq]
        intro he
        exact h.1 (by rw [hk, ← he]; exact List.mem_map_of_mem Prod.fst hkv)
      rw [hnone]
      rw [← hk]
      exact dictGet_dictSet_self d p.1 p.2
    | false =>
      cases hfind : rest.find? (fun kv => kv.1 == k) with
      | some kv => rfl
      | none =>
        have hne : k ≠ p.1 := by
          intro he
          rw [he] at hpk
          simp at hpk
        exact dictGet_dictSet_ne d p.1 p.2 k hne

/-- **C3, counterexample.** Called without an argument list, `shell` passes
the bare command to the external process: the default is the empty list,
not `["-in", "control.inp"]`. -/
theorem claim_C3_counterexample :
    (shellCall [] "vasp_std" none none none).argv = ["vasp_std"]
    ∧ (shellCall [] "vasp_std" none none none).argv
        ≠ ["vasp_std", "-in", "control.inp"] := by
  constructor
  · rfl
  · decide

/-- **C3, amended.** When the shell operation is called without an explicit
argument list, the arguments default to the empty list `[]`: the invoked
external process receives exactly the command string with no appended
arguments. -/
theorem claim_C3 (ambient : List (String × String)) (command : String)
    (workdir : Option String)
    (environment : Option (List (String × PyVal))) :
    (shellCall ambient command workdir environment none).argv = [command] := rfl

/-- **C9.** The environment of the launched process is a fresh copy of the
caller's inherited environment with each override value coerced to a
string and overlaid on top: on key collision the override wins, otherwise
the inherited binding is visible; with no overrides the process
environment is exactly the inherited one.  (The embedding is pure: the
ambient environment value is untouched.) -/
theorem claim_C9 (ambient : List (String × String)) (command : String)
    (workdir : Option String) (overrides : List (String × PyVal))
    (arguments : Option (List PyVal)) (k : String)
    (hnodup : (overrides.map Prod.fst).Nodup) :
    (dictGet (shellCall ambient command workdir (some overrides) arguments).env k =
      match overrides.find? (fun kv => kv.1 == k) with
      | some kv => some (pyStr kv.2)
      | none => dictGet ambient k)
    ∧ (shellCall ambient command workdir none arguments).env = ambient := by
  constructor
  · show dictGet (dictUpdate ambient (overrides.map fun kv => (kv.1, pyStr kv.2))) k = _
    rw [dictGet_dictUpdate _ _ _ (by rw [List.map_map]; exact hnodup)]
    rw [List.find?_map]
    have hcomp : ((fun kv : String × String => kv.1 == k)
        ∘ fun kv : String × PyVal => (kv.1, pyStr kv.2))
        = fun kv : String × PyVal => kv.1 == k := rfl
    rw [hcomp]
    cases hfind : overrides.find? (fun kv => kv.1 == k) with
    | some kv => rfl
    | none => rfl
  · rfl

/-- **C9, witness**: one colliding key and one inherited key, at concrete
values: the override `MPI_RANKS := 4` is coerced to `"4"` and shadows the
ambient binding, while `HOME` is inherited. -/
theorem claim_C9_witness :
    dictGet (shellCall [("MPI_RANKS", "1"), ("HOME", "/root")] "vasp_std" none
        (some [("MPI_RANKS", PyVal.vint 4)]) none).env "MPI_RANKS" = some "4"
    ∧ dictGet (shellCall [("MPI_RANKS", "1"), ("HOME", "/root")] "vasp_std" none
        (some [("MPI_RANKS", PyVal.vint 4)]) none).env "HOME" = some "/root" := by
  constructor
  · have h := (claim_C9 [("MPI_RANKS", "1"), ("HOME", "/root")] "vasp_std" none
      [("MPI_RANKS", PyVal.vint 4)] none "MPI_RANKS" (by decide)).1
    rw [h]
    rfl
  · have h := (claim_C9 [("MPI_RANKS", "1"), ("HOME", "/root")] "vasp_std" none
      [("MPI_RANKS", PyVal.vint 4)] none "HOME" (by decide)).1
    rw [h]
    rfl

/-! ## `compress_directory` (src/generic.py lines 169-242)

`os.walk` is modelled by the list of regular files it reports, each as the
directory component `root` paired with the base name `file`.
`fnmatch.fnmatch` is modelled for the pattern features the repository uses
(`*`, `?` and literal characters; POSIX, so no case folding; `[seq]`
classes are not modelled).  The matcher recurses on fuel that strictly
exceeds its recursion depth — every step shortens pattern-plus-string, so
depth is at most `|pattern| + |string|` and the fuel never truncates. -/

def globMatchFuel : Nat → List Char → List Char → Bool
  | 0, _, _ => false
  | Nat.succ fuel, pat, s =>
    match pat, s with
    | [], [] => true
    | [], _ :: _ => false
    | '*' :: ps, [] => globMatchFuel fuel ps []
    | '*' :: ps, c :: cs =>
        globMatchFuel fuel ps (c :: cs) || globMatchFuel fuel ('*' :: ps) cs
    | '?' :: _, [] => false
    | '?' :: ps, _ :: cs => globMatchFuel fuel ps cs
    | _ :: _, [] => false
    | p :: ps, c :: cs => p == c && globMatchFuel fuel ps cs

def fnmatch (name pat : String) : Bool :=
  globMatchFuel (pat.length + name.length + 1) pat.data name.data

/-- `os.path.basename`: the part after the last separator. -/
def basename (p : String) : String :=
  String.mk ((p.data.reverse.takeWhile fun c => c != '/').reverse)

/-- `os.path.dirname`: the part before the last separator (empty when the
path has no separator, as in Python). -/
def dirname (p : String) : String :=
  String.mk (((p.data.reverse.dropWhile fun c => c != '/').drop 1).reverse)

/-- `os.path.relpath(file_path, directory_path)` in the only form the walk
produces: `file_path` lies strictly under `directory_path`. -/
def relpath (p base : String) : String :=
  if charsStartWith (base ++ "/").data p.data then
    String.mk (p.data.drop (base.length + 1))
  else p

/-- A regular file reported by `os.walk`: the `root` directory it sits in
and its base name. -/
structure WalkEntry where
  dir : String
  name : String
deriving DecidableEq, Repr

def WalkEntry.path (e : WalkEntry) : String := pathJoin e.dir e.name

/-- The loop body's three `continue` tests, in the source's order: the
output tarball itself (exact path), a glob-pattern hit on the base name, a
base name in the exclusion list. -/
def keepInArchive (output_file : String) (exclude_files : List String)
    (exclude_file_patterns : List String) (e : WalkEntry) : Bool :=
  !(e.path == output_file)
  && !(exclude_file_patterns.any fun pattern => fnmatch e.name pattern)
  && !(exclude_files.contains e.name)

/-- The `output_file` computation of `compress_directory`:
`<directory basename>.tar.gz`, inside the source directory or beside it. -/
def outputFile (directory_path : String) (inside_dir : Bool) : String :=
  if inside_dir then
    pathJoin directory_path (basename directory_path ++ ".tar.gz")
  else
    pathJoin (dirname directory_path) (basename directory_path ++ ".tar.gz")

/-- `compress_directory`: `none` when `actually_compress` is false (the
source returns `output_file = None`), otherwise the tarball path together
with the files added to the archive, in walk order, each with its
`arcname`. -/
def compress_directory (tree : List WalkEntry) (directory_path : String)
    (exclude_files : List String) (exclude_file_patterns : List String)
    (inside_dir : Bool) (actually_compress : Bool) :
    Option (String × List (String × String)) :=
  if actually_compress then
    some (outputFile directory_path inside_dir,
      tree.foldl (fun tar e =>
        if keepInArchive (outputFile directory_path inside_dir) exclude_files
            exclude_file_patterns e then
          tar ++ [(e.path,
            pathJoin (basename directory_path) (relpath e.path directory_path))]
        else tar) [])
  else none

theorem compress_foldl_eq_filter (output_file directory_path : String)
    (exclude_files exclude_file_patterns : List String)
    (tree : List WalkEntry) (tar : List (String × String)) :
    tree.foldl (fun tar e =>
      if keepInArchive output_file exclude_files exclude_file_patterns e then
        tar ++ [(e.path,
          pathJoin (basename directory_path) (relpath e.path directory_path))]
      else tar) tar =
    tar ++ (tree.filter
        (keepInArchive output_file exclude_files exclude_file_patterns)).map
      (fun e => (e.path,
        pathJoin (basename directory_path) (relpath e.path directory_path))) := by
  induction tree generalizing tar with
  | nil => simp
  | cons e rest ih =>
    rw [List.foldl_cons, List.filter_cons]
    cases hk : keepInArchive output_file exclude_files exclude_file_patterns e with
    | true => simp [ih]
    | false => simp [ih]

/-- Walk entries for the spec's archive-exclusion example: directory `out`
holding `a.txt`, `b.log` and a stale tarball `out.tar.gz` at the archive's
own path. -/
def exampleTree : List WalkEntry :=
  [⟨"out", "a.txt"⟩, ⟨"out", "b.log"⟩, ⟨"out", "out.tar.gz"⟩]

/-- **C5.** The archive contains exactly the walked files that are not the
archive file itself (compared by exact path), whose base name is not in
the exclusion list, and whose base name matches no glob pattern; and on
the spec's example `{a.txt, b.log, out.tar.gz}` with pattern `*.log` the
archive holds `a.txt` alone (`b.log` excluded by pattern, `out.tar.gz` by
self-reference). -/
theorem claim_C5 :
    (∀ (tree : List WalkEntry) (directory_path : String)
      (exclude_files exclude_file_patterns : List String) (inside_dir : Bool)
      (output_file : String) (added : List (String × String)) (fp : String × String),
      compress_directory tree directory_path exclude_files exclude_file_patterns
          inside_dir true = some (output_file, added) →
      (fp ∈ added ↔ ∃ e, e ∈ tree
        ∧ fp = (e.path,
            pathJoin (basename directory_path) (relpath e.path directory_path))
        ∧ e.path ≠ output_file
        ∧ e.name ∉ exclude_files
        ∧ ∀ pattern ∈ exclude_file_patterns, fnmatch e.name pattern = false))
    ∧ compress_directory exampleTree "out" [] ["*.log"] true true
        = some ("out/out.tar.gz",
            [("out/a.txt", "out/a.txt")]) := by
  constructor
  · intro tree directory_path exclude_files exclude_file_patterns inside_dir
      output_file added fp h
    unfold compress_directory at h
    rw [if_pos rfl, compress_foldl_eq_filter, List.nil_append,
      Option.some.injEq, Prod.mk.injEq] at h
    obtain ⟨hout, hadded⟩ := h
    rw [← hadded, ← hout]
    simp only [List.mem_map, List.mem_filter]
    constructor
    · rintro ⟨e, ⟨he, hkeep⟩, hfp⟩
      refine ⟨e, he, hfp.symm, ?_, ?_, ?_⟩
      · intro heq
        unfold keepInArchive at hkeep
        rw [show (e.path == outputFile directory_path inside_dir) = true from
          beq_iff_eq.mpr heq] at hkeep
        simp at hkeep
      · intro hmem
        unfold keepInArchive at hkeep
        rw [show exclude_files.contains e.name = true from
          List.elem_eq_true_of_mem hmem] at hkeep
        simp at hkeep
      · intro pattern hp
        unfold keepInArchive at hkeep
        cases hfn : fnmatch e.name pattern with
        | false => rfl
        | true =>
          rw [show (exclude_file_patterns.any fun pattern =>
            fnmatch e.name pattern) = true from
            List.any_eq_true.mpr ⟨pattern, hp, hfn⟩] at hkeep
          simp at hkeep
    · rintro ⟨e, he, hfp, hself, hexcl, hpat⟩
      refine ⟨e, ⟨he, ?_⟩, hfp.symm⟩
      unfold keepInArchive
      rw [show (e.path == outputFile directory_path inside_dir) = false from
        beq_eq_false_iff_ne.mpr hself]
      rw [show (exclude_file_patterns.any fun pattern =>
        fnmatch e.name pattern) = false from by
          rw [List.any_eq_false]
          intro pattern hp
          rw [hpat pattern hp]
          exact Bool.false_ne_true]
      rw [show exclude_files.contains e.name = false from by
        cases hc : exclude_files.contains e.name with
        | false => rfl
        | true => exact absurd (List.mem_of_elem_eq_true hc) hexcl]
      rfl
  · rfl

/-- **C5, witness**: the membership characterisation applied to the spec's
example run (`{a.txt, b.log, out.tar.gz}`, pattern `*.log`, archive placed
inside `out`), at the one file the archive contains. -/
theorem claim_C5_witness :
    (("out/a.txt", "out/a.txt")
        ∈ [(("out/a.txt" : String), ("out/a.txt" : String))]
      ↔ ∃ e, e ∈ exampleTree
        ∧ (("out/a.txt" : String), ("out/a.txt" : String))
            = (e.path, pathJoin (basename "out") (relpath e.path "out"))
        ∧ e.path ≠ "out/out.tar.gz"
        ∧ e.name ∉ ([] : List String)
        ∧ ∀ pattern ∈ ["*.log"], fnmatch e.name pattern = false) :=
  claim_C5.1 exampleTree "out" [] ["*.log"] true "out/out.tar.gz"
    [("out/a.txt", "out/a.txt")] ("out/a.txt", "out/a.txt") rfl

/-! ## `create_WorkingDirectory` (src/pyiron_workflow_vasp/vasp.py lines 217-237)

The filesystem is the list of existing paths (`os.path.exists`).
`os.makedirs` is the external primitive that creates the directory and
every missing ancestor: modelled by its contract, adding the path and all
its separator-delimited proper prefixes. -/

/-- The proper prefixes of `p` that end just before a `/`: the ancestor
directories `os.makedirs` creates along the way. -/
def properAncestors (p : String) : List String :=
  (List.range p.length).filterMap fun i =>
    if p.data.get? i = some '/' then some (String.mk (p.data.take i)) else none

def makedirs (s : List String) (p : String) : List String :=
  p :: properAncestors p ++ s

/-- `create_WorkingDirectory`: the pair of the resulting filesystem and
the returned path, plus whether the already-exists warning was emitted
(`warnings.warn` is non-fatal). -/
def create_WorkingDirectory (s : List String) (workdir : String) :
    List String × String × Bool :=
  if ¬ (workdir ∈ s) then (makedirs s workdir, workdir, false)
  else (s, workdir, true)

/-- **C6.** A path that does not exist is created together with every
missing parent and returned unchanged, without a warning; a path that
already exists is returned unchanged with a non-fatal warning, the
filesystem — in particular the existing directory's contents — untouched.
Both branches are total: the operation never fails. -/
theorem claim_C6 (s : List String) (workdir : String) :
    (workdir ∉ s →
      (create_WorkingDirectory s workdir).2.1 = workdir
      ∧ workdir ∈ (create_WorkingDirectory s workdir).1
      ∧ (∀ a ∈ properAncestors workdir, a ∈ (create_WorkingDirectory s workdir).1)
      ∧ (∀ q ∈ s, q ∈ (create_WorkingDirectory s workdir).1)
      ∧ (create_WorkingDirectory s workdir).2.2 = false)
    ∧ (workdir ∈ s →
      (create_WorkingDirectory s workdir).1 = s
      ∧ (create_WorkingDirectory s workdir).2.1 = workdir
      ∧ (create_WorkingDirectory s workdir).2.2 = true) := by
  constructor
  · intro h
    unfold create_WorkingDirectory
    rw [if_pos h]
    refine ⟨rfl, List.mem_cons_self _ _, ?_, ?_, rfl⟩
    · intro a ha
      exact List.mem_cons_of_mem _ (List.mem_append_left s ha)
    · intro q hq
      exact List.mem_cons_of_mem _ (List.mem_append_right _ hq)
  · intro h
    unfold create_WorkingDirectory
    rw [if_neg (by simp [h])]
    exact ⟨rfl, rfl, rfl⟩

/-- **C6, witness**: creating `calcs/run1` in an empty filesystem yields
the directory and its parent `calcs`; creating it again warns and leaves
the filesystem unchanged. -/
theorem claim_C6_witness :
    ((create_WorkingDirectory [] "calcs/run1").2.1 = "calcs/run1"
      ∧ "calcs/run1" ∈ (create_WorkingDirectory [] "calcs/run1").1
      ∧ (∀ a ∈ properAncestors "calcs/run1",
          a ∈ (create_WorkingDirectory [] "calcs/run1").1)
      ∧ (∀ q ∈ ([] : List String), q ∈ (create_WorkingDirectory [] "calcs/run1").1)
      ∧ (create_WorkingDirectory [] "calcs/run1").2.2 = false)
    ∧ ((create_WorkingDirectory ["calcs/run1"] "calcs/run1").1 = ["calcs/run1"]
      ∧ (create_WorkingDirectory ["calcs/run1"] "calcs/run1").2.1 = "calcs/run1"
      ∧ (create_WorkingDirectory ["calcs/run1"] "calcs/run1").2.2 = true) :=
  ⟨(claim_C6 [] "calcs/run1").1 (by decide),
   (claim_C6 ["calcs/run1"] "calcs/run1").2 (by decide)⟩

/-! ## `delete_files_recursively` (src/generic.py lines 146-167)

The walked tree is the list of existing directories plus the regular files
`os.walk` reports under them; whether `os.remove` succeeds on a file is an
oracle (`removable`), modelling per-file `OSError`s such as permission
denial — the `except` clause around `os.remove` catches them and the loop
continues. -/

structure TreeFS where
  dirs : List String
  files : List WalkEntry
  removable : WalkEntry → Bool

/-- Whether a walked file lies in the tree rooted at `workdir` (it is in
`workdir` itself or in a descendant directory). -/
def underDir (workdir : String) (e : WalkEntry) : Bool :=
  e.dir == workdir || charsStartWith (workdir ++ "/").data e.dir.data

/-- The loop's deletion test: the file is reached by the walk from
`workdir` and its base name is in `files_to_be_deleted`. -/
def delTarget (workdir : String) (files_to_be_deleted : List String)
    (e : WalkEntry) : Bool :=
  underDir workdir e && files_to_be_deleted.contains e.name

/-- A file the loop leaves in place: not targeted, or targeted but its
deletion failed. -/
def keepFile (fs : TreeFS) (workdir : String) (files_to_be_deleted : List String)
    (e : WalkEntry) : Bool :=
  !(delTarget workdir files_to_be_deleted e && fs.removable e)

/-- `delete_files_recursively`: the resulting tree, the returned `workdir`
(the source returns it on every path), the files deleted, and the files
whose deletion raised and was caught.  An invalid root directory
(`not os.path.isdir(workdir)`) prints an error and performs no deletion. -/
def delete_files_recursively (fs : TreeFS) (workdir : String)
    (files_to_be_deleted : List String) :
    TreeFS × String × List WalkEntry × List WalkEntry :=
  if !(fs.dirs.contains workdir) then (fs, workdir, [], [])
  else
    ({ fs with files := fs.files.filter (keepFile fs workdir files_to_be_deleted) },
     workdir,
     (fs.files.filter (delTarget workdir files_to_be_deleted)).filter fs.removable,
     (fs.files.filter (delTarget workdir files_to_be_deleted)).filter
       (fun e => !fs.removable e))

theorem delete_files_spec_absent (fs : TreeFS) (workdir : String)
    (tgs : List String) (h : fs.dirs.contains workdir = false) :
    delete_files_recursively fs workdir tgs = (fs, workdir, [], []) := by
  unfold delete_files_recursively
  rw [if_pos (by rw [h]; rfl)]

theorem delete_files_spec (fs : TreeFS) (workdir : String)
    (tgs : List String) (h : fs.dirs.contains workdir = true) :
    delete_files_recursively fs workdir tgs =
      ({ fs with files := fs.files.filter (keepFile fs workdir tgs) },
       workdir,
       (fs.files.filter (delTarget workdir tgs)).filter fs.removable,
       (fs.files.filter (delTarget workdir tgs)).filter
         (fun e => !fs.removable e)) := by
  unfold delete_files_recursively
  rw [if_neg (by rw [h]; exact Bool.false_ne_true)]

/-- **C7.** The stage always completes and hands back the original
`workdir`; an invalid root directory leads to no deletions, no failures
and an unchanged tree, without raising; and a per-file deletion failure
does not abort the walk: every matching removable file is still deleted,
and every file whose deletion failed is still present. -/
theorem claim_C7 (fs : TreeFS) (workdir : String) (tgs : List String) :
    (delete_files_recursively fs workdir tgs).2.1 = workdir
    ∧ (fs.dirs.contains workdir = false →
        (delete_files_recursively fs workdir tgs).1 = fs
        ∧ (delete_files_recursively fs workdir tgs).2.2.1 = []
        ∧ (delete_files_recursively fs workdir tgs).2.2.2 = [])
    ∧ (fs.dirs.contains workdir = true →
        ∀ e ∈ fs.files, delTarget workdir tgs e = true →
          fs.removable e = true →
          e ∉ ((delete_files_recursively fs workdir tgs).1).files)
    ∧ (∀ e ∈ (delete_files_recursively fs workdir tgs).2.2.2,
        e ∈ ((delete_files_recursively fs workdir tgs).1).files) := by
  refine ⟨?_, ?_, ?_, ?_⟩
  · cases h : fs.dirs.contains workdir with
    | true => rw [delete_files_spec fs workdir tgs h]
    | false => rw [delete_files_spec_absent fs workdir tgs h]
  · intro h
    rw [delete_files_spec_absent fs workdir tgs h]
    exact ⟨rfl, rfl, rfl⟩
  · intro h e he htgt hrem
    rw [delete_files_spec fs workdir tgs h]
    intro hmem
    simp only [List.mem_filter, keepFile] at hmem
    rw [htgt, hrem] at hmem
    simp at hmem
  · intro e he
    cases h : fs.dirs.contains workdir with
    | true =>
      rw [delete_files_spec fs workdir tgs h] at he ⊢
      simp only [List.mem_filter, keepFile] at he ⊢
      refine ⟨he.1.1, ?_⟩
      have hr : fs.removable e = false := by
        have h2 := he.2
        cases hrc : fs.removable e with
        | false => rfl
        | true => rw [hrc] at h2; simp at h2
      rw [hr, Bool.and_false]
      rfl
    | false =>
      rw [delete_files_spec_absent fs workdir tgs h] at he
      simp at he

/-- A concrete tree for the cleanup witnesses: `run` holds a `WAVECAR`
(deletable), a nested `run/sub/WAVECAR` whose deletion fails, and an
`OUTCAR` that is not targeted. -/
def exampleTreeFS : TreeFS where
  dirs := ["run", "run/sub"]
  files := [⟨"run", "WAVECAR"⟩, ⟨"run/sub", "WAVECAR"⟩, ⟨"run", "OUTCAR"⟩]
  removable := fun e => e.dir != "run/sub"

/-- **C7, witness**: on the concrete tree, the stage returns `run`, deletes
the deletable `WAVECAR`, and keeps the file whose deletion failed; and on
a root that is not a directory it changes nothing. -/
theorem claim_C7_witness :
    (delete_files_recursively exampleTreeFS "run" ["WAVECAR"]).2.1 = "run"
    ∧ (delete_files_recursively exampleTreeFS "missing" ["WAVECAR"]).1
        = exampleTreeFS
    ∧ (⟨"run", "WAVECAR"⟩ : WalkEntry)
        ∉ ((delete_files_recursively exampleTreeFS "run" ["WAVECAR"]).1).files
    ∧ (⟨"run/sub", "WAVECAR"⟩ : WalkEntry)
        ∈ ((delete_files_recursively exampleTreeFS "run" ["WAVECAR"]).1).files :=
  ⟨(claim_C7 exampleTreeFS "run" ["WAVECAR"]).1,
   ((claim_C7 exampleTreeFS "missing" ["WAVECAR"]).2.1 (by decide)).1,
   (claim_C7 exampleTreeFS "run" ["WAVECAR"]).2.2.1 (by decide) ⟨"run", "WAVECAR"⟩
     (by decide) (by decide) (by decide),
   (claim_C7 exampleTreeFS "run" ["WAVECAR"]).2.2.2 ⟨"run/sub", "WAVECAR"⟩
     (by decide)⟩

theorem filter_keep_idem (l : List WalkEntry) (q : WalkEntry → Bool) :
    (l.filter q).filter q = l.filter q := by
  rw [List.filter_filter]
  apply List.filter_congr
  intro e he
  rw [Bool.and_self]

theorem second_deleted_nil (l : List WalkEntry) (p r : WalkEntry → Bool) :
    ((l.filter (fun e => !(p e && r e))).filter p).filter r = [] := by
  rw [List.filter_filter, List.filter_filter, List.filter_eq_nil_iff]
  intro e he hcon
  simp only [Bool.and_eq_true, Bool.not_eq_true'] at hcon
  obtain ⟨⟨hr, hp⟩, hne⟩ := hcon
  rw [hp, hr] at hne
  simp at hne

/-- **C8.** Cleanup is idempotent: a second run on the tree the first run
produced is safe (it completes and leaves the tree exactly as it found
it), deletes nothing, and the failures it reports concern only files that
are still present — never files already absent, which the walk does not
see. -/
theorem claim_C8 (fs : TreeFS) (workdir : String) (tgs : List String) :
    (delete_files_recursively
        (delete_files_recursively fs workdir tgs).1 workdir tgs).1
      = (delete_files_recursively fs workdir tgs).1
    ∧ (delete_files_recursively
        (delete_files_recursively fs workdir tgs).1 workdir tgs).2.2.1 = []
    ∧ (∀ e ∈ (delete_files_recursively
          (delete_files_recursively fs workdir tgs).1 workdir tgs).2.2.2,
        e ∈ ((delete_files_recursively fs workdir tgs).1).files) := by
  cases h : fs.dirs.contains workdir with
  | true =>
    simp only [delete_files_spec fs workdir tgs h]
    have h2 : ({ fs with
        files := fs.files.filter (keepFile fs workdir tgs) } : TreeFS).dirs.contains
        workdir = true := h
    simp only [delete_files_spec _ workdir tgs h2]
    refine ⟨?_, ?_, ?_⟩
    · show ({ fs with files := (fs.files.filter (keepFile fs workdir tgs)).filter _ }
          : TreeFS) = _
      rw [show keepFile ({ fs with
          files := fs.files.filter (keepFile fs workdir tgs) } : TreeFS) workdir tgs
          = keepFile fs workdir tgs from rfl]
      rw [filter_keep_idem]
    · exact second_deleted_nil fs.files (delTarget workdir tgs) fs.removable
    · intro e he
      simp only [List.mem_filter] at he ⊢
      exact he.1.1
  | false =>
    simp only [delete_files_spec_absent fs workdir tgs h]
    simp

/-- **C8, witness**: running cleanup twice on the concrete tree — the
second run leaves the tree fixed, deletes nothing, and the one failure it
reports is for the still-present undeletable file, not an absent one. -/
theorem claim_C8_witness :
    (delete_files_recursively
        (delete_files_recursively exampleTreeFS "run" ["WAVECAR"]).1 "run"
        ["WAVECAR"]).1
      = (delete_files_recursively exampleTreeFS "run" ["WAVECAR"]).1
    ∧ (delete_files_recursively
        (delete_files_recursively exampleTreeFS "run" ["WAVECAR"]).1 "run"
        ["WAVECAR"]).2.2.1 = []
    ∧ (⟨"run/sub", "WAVECAR"⟩ : WalkEntry)
        ∈ ((delete_files_recursively exampleTreeFS "run" ["WAVECAR"]).1).files :=
  ⟨(claim_C8 exampleTreeFS "run" ["WAVECAR"]).1,
   (claim_C8 exampleTreeFS "run" ["WAVECAR"]).2.1,
   (claim_C8 exampleTreeFS "run" ["WAVECAR"]).2.2 ⟨"run/sub", "WAVECAR"⟩
     (by decide)⟩

/-! ## `vasp_job` (src/pyiron_workflow_vasp/vasp.py lines 328-385)

The macro instantiates eight nodes and connects them with `>>` into one
linear signal chain starting from `create_WorkingDirectory`
(`self.starting_nodes = [self.working_dir]`), so execution is the
sequential composition in exactly that order.  The stage bodies (input
writers, the external process, the parser, and the stages modelled above)
are abstracted as state transformers over a state type `σ`, with the
convergence check also producing the boolean verdict; the run records the
execution trace. -/

inductive Stage where
  | createWorkingDirectory
  | writeVaspInputSet
  | shellRun
  | parseVaspOutput
  | checkConvergence
  | deleteFilesRecursively
  | compressDirectory
  | removeDir
deriving DecidableEq, Repr

structure VaspJobStages (σ : Type) where
  create_dir : σ → σ
  write_inputs : σ → σ
  run_shell : σ → σ
  parse_output : σ → σ
  check_conv : σ → σ × Bool
  cleanup : σ → σ
  compress : σ → σ
  remove : σ → σ

/-- The linear chain
`working_dir >> vaspwriter >> job >> vasp_output >> convergence_status >>
cleanup >> compress_operation >> remove_dir`: each arrow appends the next
stage to the trace and threads the state.  Returns the final state, the
convergence verdict (one of the two macro outputs), and the trace. -/
def vasp_job {σ : Type} (st : VaspJobStages σ) (s0 : σ) :
    σ × Bool × List Stage :=
  let s1 := st.create_dir s0
  let t1 := [Stage.createWorkingDirectory]
  let s2 := st.write_inputs s1
  let t2 := t1 ++ [Stage.writeVaspInputSet]
  let s3 := st.run_shell s2
  let t3 := t2 ++ [Stage.shellRun]
  let s4 := st.parse_output s3
  let t4 := t3 ++ [Stage.parseVaspOutput]
  let s5c := st.check_conv s4
  let t5 := t4 ++ [Stage.checkConvergence]
  let s6 := st.cleanup s5c.1
  let t6 := t5 ++ [Stage.deleteFilesRecursively]
  let s7 := st.compress s6
  let t7 := t6 ++ [Stage.compressDirectory]
  let s8 := st.remove s7
  let t8 := t7 ++ [Stage.removeDir]
  (s8, s5c.2, t8)

/-- **C2.** For every choice of stage bodies and initial state, the
pipeline runs the stages in the fixed total order (directory creation,
input writing, execution, parsing, convergence detection, cleanup,
archiving, removal): the trace is that exact sequence — in particular
input writing precedes execution, execution precedes parsing, and removal
comes strictly after archiving — and the final state is the composition in
that order, with removal applied after archiving.  The three
post-processing stages appear in the trace for every stage behaviour, so
in particular whatever boolean the convergence check returns. -/
theorem claim_C2 {σ : Type} (st : VaspJobStages σ) (s0 : σ) :
    (vasp_job st s0).2.2 =
      [Stage.createWorkingDirectory, Stage.writeVaspInputSet, Stage.shellRun,
       Stage.parseVaspOutput, Stage.checkConvergence,
       Stage.deleteFilesRecursively, Stage.compressDirectory, Stage.removeDir]
    ∧ (vasp_job st s0).2.2.indexOf Stage.writeVaspInputSet
        < (vasp_job st s0).2.2.indexOf Stage.shellRun
    ∧ (vasp_job st s0).2.2.indexOf Stage.shellRun
        < (vasp_job st s0).2.2.indexOf Stage.parseVaspOutput
    ∧ (vasp_job st s0).2.2.indexOf Stage.compressDirectory
        < (vasp_job st s0).2.2.indexOf Stage.removeDir
    ∧ Stage.deleteFilesRecursively ∈ (vasp_job st s0).2.2
    ∧ Stage.compressDirectory ∈ (vasp_job st s0).2.2
    ∧ Stage.removeDir ∈ (vasp_job st s0).2.2
    ∧ (vasp_job st s0).1 =
        st.remove (st.compress (st.cleanup
          (st.check_conv (st.parse_output (st.run_shell
            (st.write_inputs (st.create_dir s0))))).1))
    ∧ (vasp_job st s0).2.1 =
        (st.check_conv (st.parse_output (st.run_shell
          (st.write_inputs (st.create_dir s0))))).2 := by
  refine ⟨rfl, ?_, ?_, ?_, ?_, ?_, ?_, rfl, rfl⟩
  · show ((vasp_job st s0).2.2.indexOf Stage.writeVaspInputSet
      < (vasp_job st s0).2.2.indexOf Stage.shellRun)
    rw [show (vasp_job st s0).2.2 =
      [Stage.createWorkingDirectory, Stage.writeVaspInputSet, Stage.shellRun,
       Stage.parseVaspOutput, Stage.checkConvergence,
       Stage.deleteFilesRecursively, Stage.compressDirectory, Stage.removeDir]
      from rfl]
    decide
  · rw [show (vasp_job st s0).2.2 =
      [Stage.createWorkingDirectory, Stage.writeVaspInputSet, Stage.shellRun,
       Stage.parseVaspOutput, Stage.checkConvergence,
       Stage.deleteFilesRecursively, Stage.compressDirectory, Stage.removeDir]
      from rfl]
    decide
  · rw [show (vasp_job st s0).2.2 =
      [Stage.createWorkingDirectory, Stage.writeVaspInputSet, Stage.shellRun,
       Stage.parseVaspOutput, Stage.checkConvergence,
       Stage.deleteFilesRecursively, Stage.compressDirectory, Stage.removeDir]
      from rfl]
    decide
  · rw [show (vasp_job st s0).2.2 =
      [Stage.createWorkingDirectory, Stage.writeVaspInputSet, Stage.shellRun,
       Stage.parseVaspOutput, Stage.checkConvergence,
       Stage.deleteFilesRecursively, Stage.compressDirectory, Stage.removeDir]
      from rfl]
    decide
  · rw [show (vasp_job st s0).2.2 =
      [Stage.createWorkingDirectory, Stage.writeVaspInputSet, Stage.shellRun,
       Stage.parseVaspOutput, Stage.checkConvergence,
       Stage.deleteFilesRecursively, Stage.compressDirectory, Stage.removeDir]
      from rfl]
    decide
  · rw [show (vasp_job st s0).2.2 =
      [Stage.createWorkingDirectory, Stage.writeVaspInputSet, Stage.shellRun,
       Stage.parseVaspOutput, Stage.checkConvergence,
       Stage.deleteFilesRecursively, Stage.compressDirectory, Stage.removeDir]
      from rfl]
    decide

end PyironVasp
